import Mathlib

/-!
Verification of the AstramChain core (src/core) against its specification.

The development shallowly embeds the Rust sources:
  * `src/core/src/block/mod.rs`       — headers, sha256d, hex, merkle root
  * `src/core/src/transaction/mod.rs` — transactions, txid, signatures
  * `src/core/src/blockchain/mod.rs`  — genesis, block validation, balance
  * `src/core/src/config.rs`          — reward schedule
  * `src/core/src/consensus/mod.rs`   — compact difficulty mapping

Bytes are modelled as `List Nat` (each element < 256).  Machine integers are
`Nat`/`Int` with explicit truncation where the Rust code can wrap.  The
RocksDB store is an association list from string keys to decoded values
(the bincode-v2 storage round-trip is taken as exact, so values are stored
semantically); the consensus-critical bincode-v1 encodings used as hash
pre-images are reproduced byte for byte.  SHA-256 is implemented in full.
Ed25519 (`ed25519-dalek`, external crate) is an oracle parameter
`SigVerifier`; everything around it (hex decoding, length checks, error
propagation) follows the source.
-/

set_option maxRecDepth 100000

namespace AstramChain

/-! ## Bytes, hex codec, UTF-8 -/

/-- Big-endian rendering of `n` on `k` bytes (truncating, most significant first). -/
def beBytes : Nat → Nat → List Nat
  | 0, _ => []
  | k + 1, n => (n / 2 ^ (8 * k)) % 256 :: beBytes k n

/-- Little-endian rendering of `n` on `k` bytes (truncating), as used by
bincode v1 fixint encoding. -/
def leBytes : Nat → Nat → List Nat
  | 0, _ => []
  | k + 1, n => n % 256 :: leBytes k (n / 256)

/-- Value of a hex digit character, if it is one (both cases accepted, as in
the `hex` crate). -/
def hexDigit? (c : Char) : Option Nat :=
  if '0' ≤ c ∧ c ≤ '9' then some (c.toNat - 48)
  else if 'a' ≤ c ∧ c ≤ 'f' then some (c.toNat - 87)
  else if 'A' ≤ c ∧ c ≤ 'F' then some (c.toNat - 55)
  else none

/-- Decode a hex string to bytes; `none` on an odd length or a non-hex
character, mirroring `hex::decode`. -/
def hexDecodeChars : List Char → Option (List Nat)
  | [] => some []
  | [_] => none
  | a :: b :: r =>
    match hexDigit? a, hexDigit? b, hexDecodeChars r with
    | some x, some y, some rest => some ((16 * x + y) :: rest)
    | _, _, _ => none

/-- Embeds `hex::decode` on a string. -/
def hexDecode? (s : String) : Option (List Nat) :=
  hexDecodeChars s.data

/-- Lowercase hex digit for a value < 16. -/
def hexChar (n : Nat) : Char :=
  if n < 10 then Char.ofNat (48 + n) else Char.ofNat (87 + n)

/-- Lowercase hex rendering of a byte list, mirroring `hex::encode`. -/
def toHexStr (bs : List Nat) : String :=
  String.mk (bs.flatMap fun b => [hexChar (b / 16), hexChar (b % 16)])

/-- UTF-8 encoding of one character. -/
def charUtf8 (c : Char) : List Nat :=
  let n := c.toNat
  if n < 128 then [n]
  else if n < 2048 then [192 + n / 64, 128 + n % 64]
  else if n < 65536 then [224 + n / 4096, 128 + n / 64 % 64, 128 + n % 64]
  else [240 + n / 262144, 128 + n / 4096 % 64, 128 + n / 64 % 64, 128 + n % 64]

/-- UTF-8 bytes of a string (Rust `str::as_bytes`). -/
def utf8Bytes (s : String) : List Nat :=
  s.data.flatMap charUtf8

/-! ## SHA-256 (FIPS 180-4), over byte lists -/

def add32 (a b : Nat) : Nat := (a + b) % 4294967296

def rotr32 (k x : Nat) : Nat :=
  (x / 2 ^ k + x % 2 ^ k * 2 ^ (32 - k)) % 4294967296

def shr32 (k x : Nat) : Nat := x / 2 ^ k

def not32 (a : Nat) : Nat := Nat.xor a 4294967295

def sha256K : List Nat :=
  [1116352408, 1899447441, 3049323471, 3921009573, 961987163,
   1508970993, 2453635748, 2870763221, 3624381080, 310598401,
   607225278, 1426881987, 1925078388, 2162078206, 2614888103,
   3248222580, 3835390401, 4022224774, 264347078, 604807628,
   770255983, 1249150122, 1555081692, 1996064986, 2554220882,
   2821834349, 2952996808, 3210313671, 3336571891, 3584528711,
   113926993, 338241895, 666307205, 773529912, 1294757372,
   1396182291, 1695183700, 1986661051, 2177026350, 2456956037,
   2730485921, 2820302411, 3259730800, 3345764771, 3516065817,
   3600352804, 4094571909, 275423344, 430227734, 506948616,
   659060556, 883997877, 958139571, 1322822218, 1537002063,
   1747873779, 1955562222, 2024104815, 2227730452, 2361852424,
   2428436474, 2756734187, 3204031479, 3329325298]

def sha256H0 : List Nat :=
  [1779033703, 3144134277, 1013904242, 2773480762,
   1359893119, 2600822924, 528734635, 1541459225]

/-- SHA-256 padding: append `0x80`, zeros, and the 64-bit big-endian bit length. -/
def sha256Pad (msg : List Nat) : List Nat :=
  let len := msg.length
  let padLen := (119 - len % 64) % 64 + 1
  msg ++ (128 :: List.replicate (padLen - 1) 0) ++ beBytes 8 (8 * len)

/-- Split a byte list into 64-byte blocks (fuel-based so that it reduces
definitionally; the fuel `l.length` always suffices). -/
def blocks64Go : Nat → List Nat → List (List Nat)
  | 0, _ => []
  | _, [] => []
  | fuel + 1, a :: rest => (a :: rest).take 64 :: blocks64Go fuel ((a :: rest).drop 64)

/-- Split a byte list into 64-byte blocks. -/
def blocks64 (l : List Nat) : List (List Nat) :=
  blocks64Go l.length l

/-- Big-endian 32-bit words of a byte list. -/
def words32 : List Nat → List Nat
  | b0 :: b1 :: b2 :: b3 :: r =>
    (((b0 * 256 + b1) * 256 + b2) * 256 + b3) :: words32 r
  | _ => []

def sigmaBig0 (x : Nat) : Nat := Nat.xor (rotr32 2 x) (Nat.xor (rotr32 13 x) (rotr32 22 x))
def sigmaBig1 (x : Nat) : Nat := Nat.xor (rotr32 6 x) (Nat.xor (rotr32 11 x) (rotr32 25 x))
def sigmaSmall0 (x : Nat) : Nat := Nat.xor (rotr32 7 x) (Nat.xor (rotr32 18 x) (shr32 3 x))
def sigmaSmall1 (x : Nat) : Nat := Nat.xor (rotr32 17 x) (Nat.xor (rotr32 19 x) (shr32 10 x))

/-- Message-schedule expansion: `recent` holds the previous sixteen words,
most recent first, and `n` further words are produced in order. -/
def scheduleGo : Nat → List Nat → List Nat
  | 0, _ => []
  | n + 1, recent =>
    let next := add32 (add32 (sigmaSmall1 (recent.getD 1 0)) (recent.getD 6 0))
                      (add32 (sigmaSmall0 (recent.getD 14 0)) (recent.getD 15 0))
    next :: scheduleGo n (next :: recent.take 15)

/-- Message schedule: expand 16 words to 64. -/
def sha256Schedule (w : List Nat) : List Nat :=
  w ++ scheduleGo 48 w.reverse

/-- The compression rounds, consuming the round constants and the message
schedule in lockstep. -/
def sha256Rounds : List Nat → List Nat →
    Nat × Nat × Nat × Nat × Nat × Nat × Nat × Nat →
    Nat × Nat × Nat × Nat × Nat × Nat × Nat × Nat
  | k :: ks, wi :: ws, (a, b, c, d, e, f, g, h) =>
    let ch := Nat.xor (Nat.land e f) (Nat.land (not32 e) g)
    let maj := Nat.xor (Nat.land a b) (Nat.xor (Nat.land a c) (Nat.land b c))
    let t1 := add32 (add32 (add32 h (sigmaBig1 e)) (add32 ch k)) wi
    let t2 := add32 (sigmaBig0 a) maj
    sha256Rounds ks ws (add32 t1 t2, a, b, c, add32 d t1, e, f, g)
  | _, _, st => st

/-- Compress one 64-byte block into the running hash state (8 words). -/
def sha256Block (st : List Nat) (block : List Nat) : List Nat :=
  let w := sha256Schedule (words32 block)
  match st with
  | [h0, h1, h2, h3, h4, h5, h6, h7] =>
    let (a, b, c, d, e, f, g, h) :=
      sha256Rounds sha256K w (h0, h1, h2, h3, h4, h5, h6, h7)
    [add32 h0 a, add32 h1 b, add32 h2 c, add32 h3 d,
     add32 h4 e, add32 h5 f, add32 h6 g, add32 h7 h]
  | _ => st

/-- SHA-256 of a byte list, as 32 bytes. -/
def sha256 (msg : List Nat) : List Nat :=
  ((blocks64 (sha256Pad msg)).foldl sha256Block sha256H0).flatMap (beBytes 4)

/-- Double SHA-256, `block/mod.rs::sha256d`. -/
def sha256d (data : List Nat) : List Nat := sha256 (sha256 data)

/-! ## Data model (`block/mod.rs`, `transaction/mod.rs`, `utxo` as used by
`blockchain/mod.rs`) -/

/-- Embeds `transaction/mod.rs::TransactionInput`. -/
structure TransactionInput where
  txid : String
  vout : Nat
  pubkey : String
  signature : Option String
deriving DecidableEq

/-- Embeds `transaction/mod.rs::TransactionOutput` (`amount` is a `u64`).  The
source field `to` is a reserved token in Lean and is rendered `to_addr`. -/
structure TransactionOutput where
  to_addr : String
  amount : Nat
deriving DecidableEq

/-- Embeds `transaction/mod.rs::Transaction`. -/
structure Transaction where
  txid : String
  inputs : List TransactionInput
  outputs : List TransactionOutput
  timestamp : Int
deriving DecidableEq

/-- Embeds `block/mod.rs::BlockHeader` (`index`, `nonce` are `u64`; `difficulty` is
`u32`; `timestamp` is `i64`). -/
structure BlockHeader where
  index : Nat
  previous_hash : String
  merkle_root : String
  timestamp : Int
  nonce : Nat
  difficulty : Nat
deriving DecidableEq

/-- Embeds `block/mod.rs::Block`. -/
structure Block where
  header : BlockHeader
  transactions : List Transaction
  hash : String
deriving DecidableEq

/-- The UTXO record as constructed and consumed by `blockchain/mod.rs`
(fields `txid`, `vout`, `to`, `amount`, the amount copied from a `u64`
transaction output). -/
structure Utxo where
  txid : String
  vout : Nat
  to_addr : String
  amount : Nat
deriving DecidableEq

/-! ## bincode v1 (`bincode::serialize`) fixint little-endian encoding,
used by the source as the hash pre-image for headers and transactions -/

/-- bincode v1 string encoding: `u64` little-endian byte length, then UTF-8. -/
def encString (s : String) : List Nat :=
  leBytes 8 (utf8Bytes s).length ++ utf8Bytes s

/-- bincode v1 `i64` encoding: 8 bytes little-endian two's complement. -/
def encI64 (t : Int) : List Nat :=
  leBytes 8 (t % (2 ^ 64 : Nat)).toNat

/-- bincode v1 encoding of a `TransactionInput` (fields in declaration
order; `Option` is a one-byte tag). -/
def encInput (i : TransactionInput) : List Nat :=
  encString i.txid ++ leBytes 4 i.vout ++ encString i.pubkey ++
    (match i.signature with
     | none => [0]
     | some s => 1 :: encString s)

/-- bincode v1 encoding of a `TransactionOutput`. -/
def encOutput (o : TransactionOutput) : List Nat :=
  encString o.to_addr ++ leBytes 8 o.amount

/-- bincode v1 encoding of a `Vec`: `u64` little-endian length then elements. -/
def encVec (enc : α → List Nat) (l : List α) : List Nat :=
  leBytes 8 l.length ++ l.flatMap enc

/-- Embeds `transaction/mod.rs::Transaction::serialize_for_hash`:
`bincode::serialize(&(&inputs, &outputs, &timestamp))`.  Note that the
inputs are serialized whole, including their `signature` field. -/
def serialize_for_hash (tx : Transaction) : List Nat :=
  encVec encInput tx.inputs ++ encVec encOutput tx.outputs ++ encI64 tx.timestamp

/-- Embeds `transaction/mod.rs::Transaction::compute_txid`:
hex of `SHA256(SHA256(serialize_for_hash))`. -/
def compute_txid (tx : Transaction) : String :=
  toHexStr (sha256d (serialize_for_hash tx))

/-- Embeds `transaction/mod.rs::Transaction::coinbase`: single output, no inputs,
txid filled in by `with_txid`.  The `Utc::now()` timestamp is a parameter. -/
def Transaction.coinbase (addr : String) (amount : Nat) (now : Int) : Transaction :=
  let tx : Transaction :=
    { txid := "", inputs := [], outputs := [{ to_addr := addr, amount := amount }],
      timestamp := now }
  { tx with txid := compute_txid tx }

/-- Embeds `block/mod.rs::serialize_header`: bincode v1 of the six header fields in
declaration order. -/
def serialize_header (h : BlockHeader) : List Nat :=
  leBytes 8 h.index ++ encString h.previous_hash ++ encString h.merkle_root ++
    encI64 h.timestamp ++ leBytes 8 h.nonce ++ leBytes 4 h.difficulty

/-- Embeds `block/mod.rs::compute_header_hash`: hex of `sha256d(serialize_header)`. -/
def compute_header_hash (h : BlockHeader) : String :=
  toHexStr (sha256d (serialize_header h))

/-! ## Merkle root (`block/mod.rs::compute_merkle_root`) -/

/-- Leaf bytes of one txid string: hex-decode, falling back to 32 zero bytes
when decoding fails or the decoded length is not 32 (the source initialises
a zero array and copies only when `b.len() == 32`; a failed decode yields
`vec![0u8; 32]`). -/
def leafBytes (h : String) : List Nat :=
  match hexDecode? h with
  | none => List.replicate 32 0
  | some b => if b.length = 32 then b else List.replicate 32 0

/-- Hash consecutive pairs of a layer (layers always have even length when
this is reached, because the last element was duplicated first). -/
def pairHash : List (List Nat) → List (List Nat)
  | [] => []
  | [_] => []
  | a :: b :: r => sha256d (a ++ b) :: pairHash r

/-- Duplicate the last element when the layer length is odd
(`leaves.push(*leaves.last().unwrap())`). -/
def dupIfOdd (ls : List (List Nat)) : List (List Nat) :=
  if ls.length % 2 = 1 then ls ++ [(ls.getLast?).getD []] else ls

/-- The `while leaves.len() > 1` loop of `compute_merkle_root`, fuel-based so
that it reduces definitionally (`ls.length` steps always suffice since each
pass at least halves a layer of length ≥ 2). -/
def merkleLoop : Nat → List (List Nat) → List Nat
  | _, [x] => x
  | 0, ls => (ls.headD [])
  | fuel + 1, ls =>
    if ls.length ≤ 1 then ls.headD []
    else merkleLoop fuel (pairHash (dupIfOdd ls))

/-- Embeds `block/mod.rs::compute_merkle_root`: empty list hashes to
`sha256d("")`; otherwise decode leaves and fold layers bottom-up. -/
def compute_merkle_root (txids : List String) : String :=
  match txids with
  | [] => toHexStr (sha256d [])
  | _ => toHexStr (merkleLoop txids.length (txids.map leafBytes))

/-! ## Reward schedule (`config.rs`) and compact difficulty
(`consensus/mod.rs`) -/

/-- Embeds `config.rs::NATOSHI_PER_NTC * 8`. -/
def initial_block_reward : Nat := 8 * 1000000000000000000

/-- Embeds `config.rs::HALVING_INTERVAL`. -/
def HALVING_INTERVAL : Nat := 210000

/-- Embeds `config.rs::calculate_block_reward`.  The source computes
`(block_height / HALVING_INTERVAL) as u32`, so the halving count is the
64-bit quotient truncated to 32 bits. -/
def calculate_block_reward (block_height : Nat) : Nat :=
  let halvings := block_height / HALVING_INTERVAL % 2 ^ 32
  if halvings ≥ 33 then 0 else initial_block_reward >>> halvings

/-- Embeds `consensus/mod.rs::compact_to_leading_zeros`: top byte of the compact
difficulty selects the required count of leading hex-zero nibbles. -/
def compact_to_leading_zeros (bits : Nat) : Nat :=
  let exponent := bits >>> 24
  if exponent = 0 then 0
  else if exponent = 0x20 then 8
  else if exponent = 0x1f then 6
  else if exponent = 0x1e then 4
  else if exponent = 0x1d then 2
  else if exponent > 0x20 then 8 else 0


/-! ## The ledger store (`db/mod.rs`, RocksDB) and write batches

The store is an association list from string keys to decoded values; the
bincode-v2 storage round-trip is assumed exact, so values are stored
semantically.  `dbPut` removes any previous binding, so lookups are
order-independent. -/

/-- A decoded stored value (`h:` headers, `b:`/`t:` blocks and transactions,
`u:` UTXOs, `i:`/`tip` plain strings). -/
inductive DbVal where
  | str (s : String)
  | header (h : BlockHeader)
  | tx (t : Transaction)
  | utxo (u : Utxo)
deriving DecidableEq

/-- The keyed byte store. -/
def Db : Type := List (String × DbVal)

instance : DecidableEq Db := by unfold Db; infer_instance

/-- Point read (`DB::get`). -/
def dbGet (db : Db) (k : String) : Option DbVal :=
  (db.find? (fun p => p.1 == k)).map (fun p => p.2)

/-- A single operation recorded in a `WriteBatch`. -/
inductive BatchOp where
  | put (k : String) (v : DbVal)
  | del (k : String)
deriving DecidableEq

/-- Apply one batch operation. -/
def applyOp (db : Db) : BatchOp → Db
  | .put k v => (k, v) :: db.filter (fun p => p.1 != k)
  | .del k => db.filter (fun p => p.1 != k)

/-- Embeds `db/mod.rs::put_batch` / `DB::write`: apply a whole batch atomically,
in recorded order. -/
def applyBatch (ops : List BatchOp) (db : Db) : Db :=
  ops.foldl applyOp db

/-- Key `u:{txid}:{vout}`. -/
def utxoKey (txid : String) (vout : Nat) : String :=
  "u:" ++ txid ++ ":" ++ toString vout

/-- Key `h:{hash}`. -/
def headerKey (h : String) : String := "h:" ++ h

/-- Key `t:{txid}`. -/
def txKey (t : String) : String := "t:" ++ t

/-- Key `i:{height}`. -/
def indexKey (i : Nat) : String := "i:" ++ toString i

/-! ## Signatures (`transaction/mod.rs::verify_signatures`)

Ed25519 itself lives in the external `ed25519-dalek` crate; it is modelled
as an oracle deciding whether a (32-byte public key, message, 64-byte
signature) triple verifies.  The hex decoding, length checks and error
propagation around it follow the source. -/

/-- Signature-verification oracle: public-key bytes, message bytes,
signature bytes. -/
def SigVerifier : Type := List Nat → List Nat → List Nat → Bool

/-- Validation errors (the source uses `anyhow!` messages; each constructor
corresponds to one `return Err(...)` site). -/
inductive VErr where
  | headerHashMismatch (computed blockHash : String)
  | merkleMismatch
  | prevHeaderNotFound (h : String)
  | emptyBlock
  | coinbaseHasInputs
  | sigMalformed
  | sigVerifyFailed
  | sigInvalid (txid : String)
  | utxoNotFound (txid : String) (vout : Nat)
  | storedValueNotUtxo
  | outputsExceedInputs (txid : String)
  | chainAlreadyExists
deriving DecidableEq

/-- The per-input loop of `verify_signatures`: a missing signature yields
`Ok(false)`; undecodable or wrongly sized material and a failing
`pk.verify` propagate as errors. -/
def verifyInputs (v : SigVerifier) (msg : List Nat) :
    List TransactionInput → Except VErr Bool
  | [] => .ok true
  | inp :: rest =>
    match inp.signature with
    | none => .ok false
    | some sh =>
      match hexDecode? sh with
      | none => .error .sigMalformed
      | some sb =>
        if sb.length ≠ 64 then .error .sigMalformed
        else
          match hexDecode? inp.pubkey with
          | none => .error .sigMalformed
          | some pb =>
            if pb.length ≠ 32 then .error .sigMalformed
            else if v pb msg sb then verifyInputs v msg rest
            else .error .sigVerifyFailed

/-- Embeds `transaction/mod.rs::verify_signatures`: a transaction with no inputs
passes trivially; otherwise every input must carry a verifying signature
over `serialize_for_hash` (of the transaction as given, signatures
included). -/
def verify_signatures (v : SigVerifier) (tx : Transaction) : Except VErr Bool :=
  if tx.inputs = [] then .ok true
  else verifyInputs v (serialize_for_hash tx) tx.inputs

/-! ## Block validation (`blockchain/mod.rs`) -/

/-- Batch operations persisting a transaction and creating the UTXOs of its
outputs (`batch.put("t:...")` then one `batch.put("u:...")` per output). -/
def persistTxOps (tx : Transaction) : List BatchOp :=
  .put (txKey tx.txid) (.tx tx) ::
    tx.outputs.enum.map (fun p =>
      .put (utxoKey tx.txid p.1)
        (.utxo { txid := tx.txid, vout := p.1, to_addr := p.2.to_addr,
                 amount := p.2.amount }))

/-- The input loop of a non-coinbase transaction: look every referenced
UTXO up in the committed store (never in the in-flight batch), accumulate
the input sum, and record a batch delete.  Returns the raw sum and the
deletes in input order. -/
def checkInputs (db : Db) : List TransactionInput → Except VErr (Nat × List BatchOp)
  | [] => .ok (0, [])
  | inp :: rest =>
    match dbGet db (utxoKey inp.txid inp.vout) with
    | some (.utxo u) =>
      match checkInputs db rest with
      | .error e => .error e
      | .ok (s, ops) => .ok (u.amount + s, .del (utxoKey inp.txid inp.vout) :: ops)
    | some _ => .error .storedValueNotUtxo
    | none => .error (.utxoNotFound inp.txid inp.vout)

/-- Sum of output amounts (`output_sum`), before `u128` truncation. -/
def outputSumRaw (outs : List TransactionOutput) : Nat :=
  (outs.map (fun o => o.amount)).sum

/-- The `for (i, tx) in block.transactions.iter().enumerate()` loop of
`validate_and_insert_block`: signature check for every transaction, UTXO
spending checks for every transaction except the first, and batch
operations accumulated in program order.  Sums wrap as `u128`. -/
def processTxs (v : SigVerifier) (db : Db) : Nat → List Transaction → Except VErr (List BatchOp)
  | _, [] => .ok []
  | i, tx :: rest =>
    match verify_signatures v tx with
    | .error e => .error e
    | .ok false => .error (.sigInvalid tx.txid)
    | .ok true =>
      if i = 0 then
        match processTxs v db (i + 1) rest with
        | .error e => .error e
        | .ok more => .ok (persistTxOps tx ++ more)
      else
        match checkInputs db tx.inputs with
        | .error e => .error e
        | .ok (rawSum, dels) =>
          let input_sum := rawSum % 2 ^ 128
          let output_sum := outputSumRaw tx.outputs % 2 ^ 128
          if output_sum > input_sum then .error (.outputsExceedInputs tx.txid)
          else
            match processTxs v db (i + 1) rest with
            | .error e => .error e
            | .ok more => .ok (dels ++ persistTxOps tx ++ more)

/-- The mutable `Blockchain` struct: the store, the cached tip hash, and
the default difficulty (`block_interval` is never read by the embedded
operations and is omitted). -/
structure ChainState where
  db : Db
  chain_tip : Option String
  difficulty : Nat
deriving DecidableEq

/-- Embeds `blockchain/mod.rs::validate_and_insert_block`.  Checks in source
order: header hash, merkle root, previous-header presence (skipped at
index 0), non-emptiness, empty coinbase inputs, then the transaction loop;
on success the batch — transaction writes, then header, height index and
tip — commits atomically and the cached tip becomes the block hash. -/
def validate_and_insert_block (v : SigVerifier) (st : ChainState) (b : Block) :
    Except VErr ChainState :=
  let computed := compute_header_hash b.header
  if computed ≠ b.hash then .error (.headerHashMismatch computed b.hash)
  else if compute_merkle_root (b.transactions.map (fun t => t.txid)) ≠ b.header.merkle_root then
    .error .merkleMismatch
  else if b.header.index > 0 ∧ dbGet st.db (headerKey b.header.previous_hash) = none then
    .error (.prevHeaderNotFound b.header.previous_hash)
  else
    match b.transactions with
    | [] => .error .emptyBlock
    | cb :: _ =>
      if cb.inputs ≠ [] then .error .coinbaseHasInputs
      else
        match processTxs v st.db 0 b.transactions with
        | .error e => .error e
        | .ok ops =>
          .ok { st with
                db := applyBatch
                  (ops ++ [.put (headerKey b.hash) (.header b.header),
                           .put (indexKey b.header.index) (.str b.hash),
                           .put ("tip") (.str b.hash)]) st.db,
                chain_tip := some b.hash }

/-- The state a caller observes after `validate_and_insert_block`: the new
state on success, the old state untouched on error (`self` is only written
after `put_batch` succeeds). -/
def insertOutcome (v : SigVerifier) (st : ChainState) (b : Block) : ChainState :=
  match validate_and_insert_block v st b with
  | .ok st2 => st2
  | .error _ => st

/-- Embeds `blockchain/mod.rs::create_genesis`: refuses when a tip exists, builds a
single coinbase of amount `50` to `address`, and commits header,
transaction, UTXOs, height index and tip in one batch.  The two
`Utc::now()` readings are the parameters `now1` (coinbase) and `now2`
(header). -/
def create_genesis (st : ChainState) (address : String) (now1 now2 : Int) :
    Except VErr (ChainState × String) :=
  if st.chain_tip.isSome then .error .chainAlreadyExists
  else
    let cb := Transaction.coinbase address 50 now1
    let merkle := compute_merkle_root [cb.txid]
    let header : BlockHeader :=
      { index := 0, previous_hash := String.mk (List.replicate 64 '0'),
        merkle_root := merkle, timestamp := now2, nonce := 0,
        difficulty := st.difficulty }
    let hash := compute_header_hash header
    let batch :=
      .put (headerKey hash) (.header header) :: .put (txKey cb.txid) (.tx cb) ::
        (cb.outputs.enum.map (fun p =>
          BatchOp.put (utxoKey cb.txid p.1)
            (.utxo { txid := cb.txid, vout := p.1, to_addr := p.2.to_addr,
                     amount := p.2.amount })) ++
          [.put (indexKey 0) (.str hash), .put ("tip") (.str hash)])
    .ok ({ st with db := applyBatch batch st.db, chain_tip := some hash }, hash)

/-- Whether a key lies in the UTXO key space (`key.starts_with("u:")`). -/
def keyIsUtxo (k : String) : Bool :=
  match k.data with
  | 'u' :: ':' :: _ => true
  | _ => false

/-- The scan loop of `get_balance`: every `u:`-prefixed value is decoded as
a UTXO and contributes its amount when owned by `address`; sums wrap as
`u128`. -/
def balanceGo (address : String) : List (String × DbVal) → Nat → Except VErr Nat
  | [], s => .ok s
  | (k, v) :: rest, s =>
    if keyIsUtxo k then
      match v with
      | .utxo u =>
        balanceGo address rest (if u.to_addr = address then (s + u.amount) % 2 ^ 128 else s)
      | _ => .error .storedValueNotUtxo
    else balanceGo address rest s

/-- Embeds `blockchain/mod.rs::get_balance`: scan the whole store. -/
def get_balance (st : ChainState) (address : String) : Except VErr Nat :=
  balanceGo address st.db 0

/-- The all-accepting signature oracle (used to instantiate theorems whose
blocks carry honestly signed inputs). -/
def sigAlways : SigVerifier := fun _ _ _ => true

/-- The all-rejecting signature oracle. -/
def sigNever : SigVerifier := fun _ _ _ => false

/-- The empty chain state with the default difficulty `2` set by
`Blockchain::new` on a fresh database. -/
def emptyChain : ChainState := { db := [], chain_tip := none, difficulty := 2 }

/-! ## Concrete data used by the claim theorems -/

/-- Sixty-four zero hex characters, the genesis `previous_hash`. -/
def zeros64 : String := String.mk (List.replicate 64 '0')

/-- Coinbase-only block at height 0 whose compact difficulty `0x20000000`
demands 8 leading zero nibbles of the PoW hash. -/
def cbPow : Transaction := Transaction.coinbase ("miner1") 50 0

def hdrPow : BlockHeader :=
  { index := 0, previous_hash := zeros64,
    merkle_root := compute_merkle_root [cbPow.txid], timestamp := 0,
    nonce := 0, difficulty := 0x20000000 }

def blockPow : Block :=
  { header := hdrPow, transactions := [cbPow], hash := compute_header_hash hdrPow }


/-- Spec-side helper: drop the signatures of all inputs (the specification
says txids must not depend on them). -/
def stripSigs (t : Transaction) : Transaction :=
  { t with inputs := t.inputs.map (fun i => { i with signature := none }) }

/-- A transaction with one unsigned input. -/
def txU : Transaction :=
  { txid := "", inputs := [{ txid := zeros64, vout := 0, pubkey := "", signature := none }],
    outputs := [], timestamp := 0 }

/-- The same transaction with a signature attached to its input. -/
def txS : Transaction :=
  { txU with inputs := txU.inputs.map (fun i => { i with signature := some ("ab") }) }

/-- Coinbase of the block exhibiting a zero-input non-coinbase transaction. -/
def cbZ : Transaction := Transaction.coinbase ("miner9") 50 0

/-- A non-coinbase transaction with no inputs and no outputs. -/
def txZeroInputs : Transaction :=
  { txid := String.mk (List.replicate 64 'a'), inputs := [], outputs := [],
    timestamp := 0 }

def hdrZ : BlockHeader :=
  { index := 0, previous_hash := zeros64,
    merkle_root := compute_merkle_root [cbZ.txid, txZeroInputs.txid],
    timestamp := 0, nonce := 0, difficulty := 0x1d000000 }

/-- Structurally well-formed block whose second transaction has no inputs. -/
def blockZ : Block :=
  { header := hdrZ, transactions := [cbZ, txZeroInputs],
    hash := compute_header_hash hdrZ }

def hdrE : BlockHeader :=
  { index := 0, previous_hash := zeros64, merkle_root := compute_merkle_root [],
    timestamp := 0, nonce := 0, difficulty := 0x1d000000 }

/-- A block with a correct header hash and merkle root but no transactions:
rejected as `emptyBlock`. -/
def blockEmptyTxs : Block :=
  { header := hdrE, transactions := [], hash := compute_header_hash hdrE }

/-! Data for the intra-block double spend. -/

/-- Txid of the (already stored) funding transaction. -/
def fundTxid : String := String.mk (List.replicate 64 'b')

/-- Hash under which the parent header is stored. -/
def prevHash2 : String := String.mk (List.replicate 64 'e')

def prevHdr2 : BlockHeader :=
  { index := 0, previous_hash := zeros64, merkle_root := "", timestamp := 0,
    nonce := 0, difficulty := 0 }

/-- Hex of a 32-byte public key. -/
def pkHex : String := String.mk (List.replicate 64 'a')

/-- Hex of a 64-byte signature. -/
def sigHex : String := String.mk (List.replicate 128 'c')

/-- The input both spending transactions reference: `(fundTxid, 0)`. -/
def inpSpend : TransactionInput :=
  { txid := fundTxid, vout := 0, pubkey := pkHex, signature := some sigHex }

def txSpend1 : Transaction :=
  { txid := String.mk (List.replicate 64 '1'), inputs := [inpSpend],
    outputs := [{ to_addr := "B", amount := 50 }], timestamp := 0 }

def txSpend2 : Transaction :=
  { txid := String.mk (List.replicate 64 '2'), inputs := [inpSpend],
    outputs := [{ to_addr := "C", amount := 50 }], timestamp := 0 }

def cb2 : Transaction := Transaction.coinbase ("miner2") 50 0

def hdr2 : BlockHeader :=
  { index := 1, previous_hash := prevHash2,
    merkle_root := compute_merkle_root [cb2.txid, txSpend1.txid, txSpend2.txid],
    timestamp := 0, nonce := 0, difficulty := 0x1d000000 }

/-- Block containing two distinct transactions that both spend
`(fundTxid, 0)`. -/
def blockDouble : Block :=
  { header := hdr2, transactions := [cb2, txSpend1, txSpend2],
    hash := compute_header_hash hdr2 }

/-- State holding the parent header and a single 50-unit UTXO
`(fundTxid, 0)` owned by address `A`. -/
def seededChain : ChainState :=
  { db := [(headerKey prevHash2, .header prevHdr2),
           (utxoKey fundTxid 0,
            .utxo { txid := fundTxid, vout := 0, to_addr := "A", amount := 50 })],
    chain_tip := some prevHash2, difficulty := 2 }

/-- A signature oracle accepting exactly the two honestly-signed spending
messages of `blockDouble` under its public key, rejecting everything else
(standing in for Ed25519 verification of those two signatures). -/
def sigExact : SigVerifier := fun pb m sb =>
  pb == (hexDecode? pkHex).getD [] && sb == (hexDecode? sigHex).getD [] &&
    (m == serialize_for_hash txSpend1 || m == serialize_for_hash txSpend2)

/-! Data for the tip/reorganisation claim: genesis `blockG`, a height-5
child `blockB`, then a height-1 block `blockC` whose parent is `blockB`. -/

def cbG : Transaction := Transaction.coinbase ("miner4") 50 0

def hdrG : BlockHeader :=
  { index := 0, previous_hash := zeros64,
    merkle_root := compute_merkle_root [cbG.txid], timestamp := 0, nonce := 0,
    difficulty := 0x1d000000 }

def blockG : Block :=
  { header := hdrG, transactions := [cbG], hash := compute_header_hash hdrG }

def cbB : Transaction := Transaction.coinbase ("miner4") 50 1

def hdrB : BlockHeader :=
  { index := 5, previous_hash := blockG.hash,
    merkle_root := compute_merkle_root [cbB.txid], timestamp := 1, nonce := 0,
    difficulty := 0x1d000000 }

def blockB : Block :=
  { header := hdrB, transactions := [cbB], hash := compute_header_hash hdrB }

def cbC : Transaction := Transaction.coinbase ("miner4") 50 2

def hdrC : BlockHeader :=
  { index := 1, previous_hash := blockB.hash,
    merkle_root := compute_merkle_root [cbC.txid], timestamp := 2, nonce := 0,
    difficulty := 0x1d000000 }

def blockC : Block :=
  { header := hdrC, transactions := [cbC], hash := compute_header_hash hdrC }

def stAfterG : ChainState := insertOutcome sigNever emptyChain blockG
def stAfterB : ChainState := insertOutcome sigNever stAfterG blockB
def stAfterC : ChainState := insertOutcome sigNever stAfterB blockC

/-! Data for the genesis scenario. -/

def genResult : Except VErr (ChainState × String) :=
  create_genesis emptyChain ("A") 0 0

def genState : ChainState :=
  match genResult with
  | .ok p => p.1
  | .error _ => emptyChain

def genHash : String :=
  match genResult with
  | .ok p => p.2
  | .error _ => ""

/-! Spec-side merkle definitions (for the refinement theorem). -/

/-- Whether a txid hex-decodes to exactly 32 bytes. -/
def isHex32 (t : String) : Bool :=
  match hexDecode? t with
  | some b => b.length == 32
  | none => false

/-- A txid that does not decode to exactly 32 bytes. -/
def malformedTxid (t : String) : Bool :=
  match hexDecode? t with
  | some b => b.length != 32
  | none => true

/-- Spec-side leaf: the decoded txid bytes. -/
def specLeaf (t : String) : List Nat := (hexDecode? t).getD []

theorem pairHash_length : ∀ l : List (List Nat), (pairHash l).length = l.length / 2
  | [] => by simp [pairHash]
  | [_] => by simp [pairHash]
  | _ :: _ :: r => by
    simp [pairHash, pairHash_length r]
    omega

theorem dupIfOdd_length (l : List (List Nat)) :
    (dupIfOdd l).length = l.length + l.length % 2 := by
  unfold dupIfOdd
  split <;> simp <;> omega

/-- The merkle root as the specification words it: duplicate the last
element of an odd layer, hash consecutive pairs, repeat until one node is
left; the empty forest hashes to `sha256d("")`. -/
def merkleSpec : List (List Nat) → List Nat
  | [] => sha256d []
  | [x] => x
  | a :: b :: r => merkleSpec (pairHash (dupIfOdd (a :: b :: r)))
termination_by l => l.length
decreasing_by simp [pairHash_length, dupIfOdd_length]; omega

/-- Decidable equality of `Except` results. -/
instance {α β : Type} [DecidableEq α] [DecidableEq β] : DecidableEq (Except α β) :=
  fun a b =>
    match a, b with
    | .ok x, .ok y =>
      if h : x = y then isTrue (by rw [h]) else isFalse (fun hh => h (by cases hh; rfl))
    | .error x, .error y =>
      if h : x = y then isTrue (by rw [h]) else isFalse (fun hh => h (by cases hh; rfl))
    | .ok _, .error _ => isFalse (fun hh => Except.noConfusion hh)
    | .error _, .ok _ => isFalse (fun hh => Except.noConfusion hh)

/-- Three well-formed 64-hex-character txids for the merkle witness. -/
def demoTxids : List String :=
  [String.mk (List.replicate 64 '3'), String.mk (List.replicate 64 '4'),
   String.mk (List.replicate 64 '5')]

/-! ## Theorems -/

/-- FIPS 180-4 test vector for the embedded SHA-256. -/
example : toHexStr (sha256 (utf8Bytes ("abc"))) =
    "ba7816bf8f01cfea414140de5dae2223b00361a396177a9cb410ff61f20015ad" := by
  decide

/-- SHA-256 of the empty message. -/
example : toHexStr (sha256 []) =
    "e3b0c44298fc1c149afbf4c8996fb92427ae41e4649b934ca495991b7852b855" := by
  decide

/-- C1: `validate_and_insert_block` accepts `blockPow` — a block whose
compact difficulty `0x20000000` demands 8 leading zero hex nibbles of the
PoW hash — without ever computing `hash_with_dag` or any other
proof-of-work check: the function contains no PoW verification at all, so
acceptance is independent of the PoW hash (here even the signature oracle
rejects everything, and nonce 0 was never searched). -/
theorem c1_accepts_block_without_pow_check :
    (validate_and_insert_block sigNever emptyChain blockPow).isOk = true ∧
      compact_to_leading_zeros blockPow.header.difficulty = 8 ∧
      (insertOutcome sigNever emptyChain blockPow).chain_tip = some blockPow.hash := by
  exact ⟨by decide, by decide, by decide⟩

/-- C3: two transactions that differ only in an input signature (their
signature-stripped forms, outputs and timestamps agree) have different
txids, because `serialize_for_hash` serializes the inputs whole, signature
field included. -/
theorem c3_txid_depends_on_signature :
    stripSigs txS = stripSigs txU ∧ txS.outputs = txU.outputs ∧
      txS.timestamp = txU.timestamp ∧ compute_txid txS ≠ compute_txid txU := by
  exact ⟨by decide, by decide, by decide, by decide⟩

/-- C7: the halving count is the height quotient truncated to `u32`, so at
height `210000 * 2^32` — where the claim's shift count `h / 210_000 = 2^32`
is far beyond 33 and the reward should be zero — the code pays the full
initial reward again; the in-range values (heights `0` and `210000`) match
the claim. -/
theorem c7_reward_u32_cast_wraps :
    calculate_block_reward (210000 * 4294967296) = 8000000000000000000 ∧
      210000 * 4294967296 / 210000 = 4294967296 ∧
      calculate_block_reward 210000 = 4000000000000000000 ∧
      calculate_block_reward 0 = 8000000000000000000 := by
  exact ⟨by decide, by decide, by decide, by decide⟩

/-- C8: `create_genesis` on an empty store succeeds, indexes one block at
height 0, sets the tip to the genesis hash — but pays the coinbase `50`
base units, not the `reward(0) = 8·10^18` required by the claim and by the
repository's own `calculate_block_reward`. -/
theorem c8_genesis_pays_50 :
    genResult = .ok (genState, genHash) ∧
      genState.chain_tip = some genHash ∧
      dbGet genState.db (indexKey 0) = some (.str genHash) ∧
      get_balance genState ("A") = .ok 50 ∧
      calculate_block_reward 0 = 8 * 1000000000000000000 := by
  exact ⟨by decide, by decide, by decide, by decide, by decide⟩

/-- C9 (counterexample): a block whose second, non-coinbase transaction has
zero inputs is accepted, so `validate_and_insert_block` does not enforce
that every non-coinbase transaction has at least one input. -/
theorem c9_zero_input_noncoinbase_accepted :
    (validate_and_insert_block sigNever emptyChain blockZ).isOk = true ∧
      blockZ.transactions[1]? = some txZeroInputs ∧
      txZeroInputs.inputs = [] := by
  exact ⟨by decide, by decide, by decide⟩

/-- C10: a txid that does not hex-decode to exactly 32 bytes contributes a
32-zero-byte leaf, and the two distinct singleton lists `["zz"]` (invalid
hex) and `["ff"]` (valid hex, wrong length) produce the same merkle root. -/
theorem c10_malformed_txids_collapse :
    (∀ t : String, malformedTxid t = true → leafBytes t = List.replicate 32 0) ∧
      compute_merkle_root [("zz")] = compute_merkle_root [("ff")] ∧
      (("zz") : String) ≠ ("ff") := by
  refine ⟨?_, by decide, by decide⟩
  intro t h
  unfold malformedTxid at h
  unfold leafBytes
  cases he : hexDecode? t with
  | none => simp [he]
  | some b =>
    simp [he] at h ⊢
    intro hlen
    exact absurd hlen h

/-- C10 witness: the invalid-hex txid `"zz"` is malformed and its leaf is
32 zero bytes. -/
theorem c10_malformed_txids_collapse_witness :
    leafBytes ("zz") = List.replicate 32 0 :=
  c10_malformed_txids_collapse.1 ("zz") (by decide)

/-- Valid leaves decode to their hex bytes. -/
theorem leafBytes_eq_specLeaf (t : String) (h : isHex32 t = true) :
    leafBytes t = specLeaf t := by
  unfold isHex32 at h
  unfold leafBytes specLeaf
  cases he : hexDecode? t with
  | none => rw [he] at h; exact absurd h (by simp)
  | some b =>
    rw [he] at h
    simp at h
    simp [he, h]

/-- The fuelled merkle loop agrees with the well-founded specification
whenever the fuel is at least the layer size minus one. -/
theorem merkleLoop_eq_spec :
    ∀ (fuel : Nat) (ls : List (List Nat)), ls ≠ [] → ls.length ≤ fuel + 1 →
      merkleLoop fuel ls = merkleSpec ls := by
  intro fuel
  induction fuel with
  | zero =>
    intro ls hne hlen
    cases ls with
    | nil => exact absurd rfl hne
    | cons a tail =>
      cases tail with
      | nil => simp [merkleLoop, merkleSpec]
      | cons b r => simp at hlen
  | succ fuel ih =>
    intro ls hne hlen
    cases ls with
    | nil => exact absurd rfl hne
    | cons a tail =>
      cases tail with
      | nil => simp [merkleLoop, merkleSpec]
      | cons b r =>
        have step : merkleLoop (fuel + 1) (a :: b :: r)
            = merkleLoop fuel (pairHash (dupIfOdd (a :: b :: r))) := by
          rw [show merkleLoop (fuel + 1) (a :: b :: r)
              = if (a :: b :: r).length ≤ 1 then (a :: b :: r).headD []
                else merkleLoop fuel (pairHash (dupIfOdd (a :: b :: r))) from rfl]
          rw [if_neg (by simp)]
        have hlen2 : (pairHash (dupIfOdd (a :: b :: r))).length
            = ((a :: b :: r).length + (a :: b :: r).length % 2) / 2 := by
          rw [pairHash_length, dupIfOdd_length]
        have hne2 : pairHash (dupIfOdd (a :: b :: r)) ≠ [] := by
          apply List.length_pos.mp
          rw [hlen2]
          simp
          omega
        have hlen3 : (pairHash (dupIfOdd (a :: b :: r))).length ≤ fuel + 1 := by
          rw [hlen2]
          simp at hlen ⊢
          omega
        have spec_eq : merkleSpec (a :: b :: r)
            = merkleSpec (pairHash (dupIfOdd (a :: b :: r))) := by
          conv_lhs => rw [merkleSpec]
        rw [step, spec_eq]
        exact ih _ hne2 hlen3

/-- C6: on any list of txids that hex-decode to 32 bytes,
`compute_merkle_root` returns the hex of the specification's bottom-up
layer fold over the decoded leaves (odd layers duplicate their last
element, parents are `sha256d(left ++ right)`), and the empty list hashes
to `sha256d("")`. -/
theorem c6_merkle_root_matches_spec :
    (∀ L : List String, (∀ t ∈ L, isHex32 t = true) →
        compute_merkle_root L = toHexStr (merkleSpec (L.map specLeaf))) ∧
      compute_merkle_root [] = toHexStr (sha256d []) := by
  constructor
  · intro L h
    cases L with
    | nil => simp [compute_merkle_root, merkleSpec]
    | cons t rest =>
      have hm : (t :: rest).map leafBytes = (t :: rest).map specLeaf :=
        List.map_congr_left (fun a ha => leafBytes_eq_specLeaf a (h a ha))
      show toHexStr (merkleLoop (t :: rest).length ((t :: rest).map leafBytes)) = _
      rw [hm, merkleLoop_eq_spec]
      · simp
      · simp
  · rfl

/-- C6 witness: the refinement evaluated on three concrete 32-byte txids. -/
theorem c6_merkle_root_matches_spec_witness :
    (∀ t ∈ demoTxids, isHex32 t = true) ∧
      compute_merkle_root demoTxids = toHexStr (merkleSpec (demoTxids.map specLeaf)) :=
  ⟨by decide, c6_merkle_root_matches_spec.1 demoTxids (by decide)⟩

/-- C5: when `validate_and_insert_block` fails, the observed chain state is
exactly the input state — no write leaks, because every write is buffered
in the batch and committed only by the final `put_batch`; and when it
succeeds, the whole effect is one `applyBatch` on the previous store
together with the tip update. -/
theorem c5_failed_validation_changes_nothing (v : SigVerifier) (st : ChainState)
    (b : Block) :
    ((∃ e, validate_and_insert_block v st b = .error e) → insertOutcome v st b = st) ∧
      (∀ st', validate_and_insert_block v st b = .ok st' →
        ∃ ops, st'.db = applyBatch ops st.db ∧ st'.chain_tip = some b.hash ∧
          st'.difficulty = st.difficulty) := by
  constructor
  · rintro ⟨e, h⟩
    simp [insertOutcome, h]
  · intro st' h
    simp only [validate_and_insert_block] at h
    split at h
    · exact absurd h (by simp)
    · split at h
      · exact absurd h (by simp)
      · split at h
        · exact absurd h (by simp)
        · split at h
          · exact absurd h (by simp)
          · split at h
            · exact absurd h (by simp)
            · split at h
              · exact absurd h (by simp)
              · injection h with h2
                subst h2
                exact ⟨_, rfl, rfl, rfl⟩

/-- C5 witness: a failing block (empty transaction list) leaves the empty
chain state untouched. -/
theorem c5_failed_validation_changes_nothing_witness :
    insertOutcome sigAlways emptyChain blockEmptyTxs = emptyChain :=
  (c5_failed_validation_changes_nothing sigAlways emptyChain blockEmptyTxs).1
    ⟨.emptyBlock, by decide⟩

/-- C9 (amended): every accepted block is non-empty and its first
transaction has no inputs; the source enforces nothing about the input
count of the remaining transactions. -/
theorem c9_accepted_blocks_have_coinbase_shape (v : SigVerifier) (st : ChainState)
    (b : Block) (st' : ChainState)
    (h : validate_and_insert_block v st b = .ok st') :
    b.transactions ≠ [] ∧ ∃ cb rest, b.transactions = cb :: rest ∧ cb.inputs = [] := by
  simp only [validate_and_insert_block] at h
  split at h
  · exact absurd h (by simp)
  · split at h
    · exact absurd h (by simp)
    · split at h
      · exact absurd h (by simp)
      · split at h
        · exact absurd h (by simp)
        · rename_i cb rest heq
          split at h
          · exact absurd h (by simp)
          · rename_i hinp
            exact ⟨by simp [heq], cb, rest, heq, not_not.mp hinp⟩

/-- C9 amended witness: applied to the concrete accepted block `blockZ`. -/
theorem c9_accepted_blocks_have_coinbase_shape_witness :
    blockZ.transactions ≠ [] ∧
      ∃ cb rest, blockZ.transactions = cb :: rest ∧ cb.inputs = [] :=
  c9_accepted_blocks_have_coinbase_shape sigNever emptyChain blockZ
    (insertOutcome sigNever emptyChain blockZ) (by decide)

/-- C2: `blockDouble` contains two distinct transactions that both
reference the UTXO `(fundTxid, 0)`, and `validate_and_insert_block`
accepts it — input lookups consult only the committed store, never the
in-flight batch, so the in-block delete of the first spend is invisible to
the second.  The UTXO exists beforehand and is gone afterwards, having
funded both spends. -/
theorem c2_intra_block_double_spend_accepted :
    (validate_and_insert_block sigExact seededChain blockDouble).isOk = true ∧
      txSpend1.inputs = [inpSpend] ∧ txSpend2.inputs = [inpSpend] ∧
      txSpend1 ≠ txSpend2 ∧
      dbGet seededChain.db (utxoKey fundTxid 0) ≠ none ∧
      dbGet (insertOutcome sigExact seededChain blockDouble).db
        (utxoKey fundTxid 0) = none := by
  exact ⟨by decide, by decide, by decide, by decide, by decide, by decide⟩

/-- C4: starting from genesis `blockG`, after accepting `blockB` at height
5 the tip is `blockB`; accepting `blockC` — a block at height 1 whose
chain is strictly shorter — still moves the tip to `blockC`, and the
accepted header `blockB` (height 5) stays reachable from the new tip via
`previous_hash`, so the tip's height is not maximal. -/
theorem c4_tip_moves_to_non_longer_chain :
    (validate_and_insert_block sigNever stAfterB blockC).isOk = true ∧
      stAfterB.chain_tip = some blockB.hash ∧
      stAfterC.chain_tip = some blockC.hash ∧
      blockC.hash ≠ blockB.hash ∧
      blockB.header.index = 5 ∧ blockC.header.index = 1 ∧
      dbGet stAfterC.db (headerKey blockC.header.previous_hash) =
        some (.header blockB.header) := by
  exact ⟨by decide, by decide, by decide, by decide, by decide, by decide, by decide⟩

end AstramChain
